import Mathlib

/-!
Verification development for the machine-bound API-key subsystem of the
repository (source file `python.py`): token construction
(`generate_api_key`), token verification (`validate_api_key`), the
manifest patch passes (`patch_manifest`, the manifest part of
`inject_api_key_validation`), and the packaging pipeline
(`generate_user_package`).

Modelling conventions (shallow embedding of the Python source):

* Python strings are modelled as `List Char` (`Str`); `str.split('.')`
  is `splitOnChar`, f-string concatenation is list append.
* The library hash functions `hashlib.md5(...).hexdigest()` and
  `hashlib.sha256(...).hexdigest()` are abstracted as parameters
  (`HashEnv`); the facts the code relies on (hexdigest is a 32- resp.
  64-character lowercase-hex string) are the predicate `GoodHashEnv`.
* `secrets.choice(alphabet)` draws are abstracted as oracles
  `Nat → Char`; `GoodOracle` states each draw lands in the alphabet,
  which is what `secrets.choice` guarantees.
* Wall-clock time is a `Nat` Unix timestamp passed explicitly (the
  code reads `datetime.datetime.now()` once per call); the
  `datetime.strptime` / `strftime` library calls are abstracted as the
  parameters of `DateEnv`.
* `format(n, 'x')` is `natToHex`; `int(s, 16)` is `parseHex`, modelled
  for inputs made of hex digits (no sign, 0x marker, whitespace or
  underscore handling, which the token wire format never produces).
-/

abbrev Str := List Char

/-- The alphabet `string.ascii_letters + string.digits` used for the
`secret` and `salt` fields. -/
def alphabet : Str :=
  "abcdefghijklmnopqrstuvwxyzABCDEFGHIJKLMNOPQRSTUVWXYZ0123456789".data

/-- The sixteen lowercase hex digit characters. -/
def lowerHex : Str := "0123456789abcdef".data

/-- Model of Python `str.split(sep)` for a one-character separator:
splits on every occurrence, keeping empty fields, and yields one more
field than there are separators. -/
def splitOnChar (sep : Char) : Str → List Str
  | [] => [[]]
  | ch :: rest =>
    match splitOnChar sep rest with
    | [] => [[]]
    | f :: fs => if ch = sep then [] :: f :: fs else (ch :: f) :: fs

theorem splitOnChar_ne_nil (sep : Char) (l : Str) : splitOnChar sep l ≠ [] := by
  cases l with
  | nil => simp [splitOnChar]
  | cons ch rest =>
    simp only [splitOnChar]
    cases splitOnChar sep rest with
    | nil => simp
    | cons f fs =>
      by_cases h : ch = sep <;> simp [h]

theorem splitOnChar_no_sep (sep : Char) (l : Str) (h : sep ∉ l) :
    splitOnChar sep l = [l] := by
  induction l with
  | nil => rfl
  | cons ch rest ih =>
    have hch : ch ≠ sep := fun he => h (he ▸ List.mem_cons_self ch rest)
    have hrest : sep ∉ rest := fun hm => h (List.mem_cons_of_mem ch hm)
    simp [splitOnChar, ih hrest, hch]

theorem splitOnChar_append (sep : Char) (l r : Str) (h : sep ∉ l) :
    splitOnChar sep (l ++ sep :: r) = l :: splitOnChar sep r := by
  induction l with
  | nil =>
    simp only [List.nil_append, splitOnChar]
    cases hs : splitOnChar sep r with
    | nil => exact absurd hs (splitOnChar_ne_nil sep r)
    | cons f fs => simp
  | cons ch l2 ih =>
    have hch : ch ≠ sep := fun he => h (he ▸ List.mem_cons_self ch l2)
    have hl2 : sep ∉ l2 := fun hm => h (List.mem_cons_of_mem ch hm)
    simp only [List.cons_append, splitOnChar, List.append_eq]
    rw [ih hl2]
    simp [hch]

/-- Fuel-driven digit rendering, shared by the models of Python
`format(n, 'x')` (base 16) and `str(n)` (base 10).  The fuel only
bounds the recursion depth; `natDigitsAux_eq` below shows any
sufficient fuel gives the same digits. -/
def natDigitsAux (base : Nat) : Nat → Nat → Str
  | 0, _ => []
  | fuel + 1, n =>
    if n < base then [Nat.digitChar n]
    else natDigitsAux base fuel (n / base) ++ [Nat.digitChar (n % base)]

/-- Model of `format(n, 'x')`: lowercase hexadecimal, no padding, no 0x marker. -/
def natToHex (n : Nat) : Str := natDigitsAux 16 (n + 1) n

/-- Model of `str(n)` for a natural number (used in the validity message). -/
def natToDec (n : Nat) : Str := natDigitsAux 10 (n + 1) n

theorem natDigitsAux_eq (base : Nat) (hb : 2 ≤ base) :
    ∀ fuel1 fuel2 n : Nat, n < fuel1 → n < fuel2 →
      natDigitsAux base fuel1 n = natDigitsAux base fuel2 n := by
  intro fuel1
  induction fuel1 with
  | zero => intro fuel2 n h1; omega
  | succ f1 ih =>
    intro fuel2 n h1 h2
    cases fuel2 with
    | zero => omega
    | succ f2 =>
      simp only [natDigitsAux]
      by_cases hn : n < base
      · simp [hn]
      · have hdiv : n / base < n := Nat.div_lt_self (by omega) (by omega)
        simp only [hn, if_false]
        rw [ih f2 (n / base) (by omega) (by omega)]

theorem natDigitsAux_ne_nil (base : Nat) (fuel n : Nat) (h : n < fuel) :
    natDigitsAux base fuel n ≠ [] := by
  cases fuel with
  | zero => omega
  | succ f =>
    simp only [natDigitsAux]
    by_cases hn : n < base <;> simp [hn]

theorem digitChar_mem_lowerHex : ∀ n : Nat, n < 16 → Nat.digitChar n ∈ lowerHex := by
  decide

theorem natDigitsAux_mem_lowerHex (fuel : Nat) :
    ∀ n : Nat, n < fuel → ∀ c ∈ natDigitsAux 16 fuel n, c ∈ lowerHex := by
  induction fuel with
  | zero => intro n h; omega
  | succ f ih =>
    intro n h c hc
    simp only [natDigitsAux] at hc
    by_cases hn : n < 16
    · simp only [hn, if_true, List.mem_singleton] at hc
      exact hc ▸ digitChar_mem_lowerHex n hn
    · simp only [hn, if_false, List.mem_append, List.mem_singleton] at hc
      rcases hc with hc | hc
      · have hdiv : n / 16 < n := Nat.div_lt_self (by omega) (by omega)
        exact ih (n / 16) (by omega) c hc
      · exact hc ▸ digitChar_mem_lowerHex (n % 16) (Nat.mod_lt n (by omega))

theorem natToHex_mem_lowerHex (n : Nat) : ∀ c ∈ natToHex n, c ∈ lowerHex :=
  natDigitsAux_mem_lowerHex (n + 1) n (Nat.lt_succ_self n)

theorem natToHex_ne_nil (n : Nat) : natToHex n ≠ [] :=
  natDigitsAux_ne_nil 16 (n + 1) n (Nat.lt_succ_self n)

/-- Numeric value of a single hex digit character, both cases accepted,
as Python `int(s, 16)` does per character. -/
def hexCharVal (ch : Char) : Option Nat :=
  if '0' ≤ ch ∧ ch ≤ '9' then some (ch.toNat - '0'.toNat)
  else if 'a' ≤ ch ∧ ch ≤ 'f' then some (ch.toNat - 'a'.toNat + 10)
  else if 'A' ≤ ch ∧ ch ≤ 'F' then some (ch.toNat - 'A'.toNat + 10)
  else none

def parseHexCore : Nat → Str → Option Nat
  | acc, [] => some acc
  | acc, ch :: rest =>
    match hexCharVal ch with
    | some v => parseHexCore (16 * acc + v) rest
    | none => none

/-- Model of Python `int(s, 16)` on digit-only inputs: `none` models the
`ValueError` raised on the empty string or a non-hex character. -/
def parseHex : Str → Option Nat
  | [] => none
  | ch :: rest => parseHexCore 0 (ch :: rest)

theorem hexCharVal_digitChar : ∀ n : Nat, n < 16 →
    hexCharVal (Nat.digitChar n) = some n := by
  decide

theorem parseHexCore_append (acc : Nat) (l r : Str) :
    parseHexCore acc (l ++ r) =
      match parseHexCore acc l with
      | some a => parseHexCore a r
      | none => none := by
  induction l generalizing acc with
  | nil => simp [parseHexCore]
  | cons ch rest ih =>
    simp only [List.cons_append, parseHexCore]
    cases hexCharVal ch with
    | none => rfl
    | some v => exact ih (16 * acc + v)

theorem parseHexCore_natDigitsAux (fuel : Nat) :
    ∀ n acc : Nat, n < fuel →
      parseHexCore acc (natDigitsAux 16 fuel n) =
        some (acc * 16 ^ (natDigitsAux 16 fuel n).length + n) := by
  induction fuel with
  | zero => intro n acc h; omega
  | succ f ih =>
    intro n acc h
    simp only [natDigitsAux]
    by_cases hn : n < 16
    · simp [hn, parseHexCore, hexCharVal_digitChar n hn, Nat.mul_comm]
    · have hdiv : n / 16 < n := Nat.div_lt_self (by omega) (by omega)
      simp only [hn, if_false]
      rw [parseHexCore_append, ih (n / 16) acc (by omega)]
      simp only [parseHexCore, hexCharVal_digitChar (n % 16) (Nat.mod_lt n (by omega))]
      have hlen : (natDigitsAux 16 f (n / 16) ++ [Nat.digitChar (n % 16)]).length =
          (natDigitsAux 16 f (n / 16)).length + 1 := by simp
      rw [hlen]
      congr 1
      have hmod : 16 * (n / 16) + n % 16 = n := Nat.div_add_mod n 16
      have : acc * 16 ^ ((natDigitsAux 16 f (n / 16)).length + 1) =
          16 * (acc * 16 ^ (natDigitsAux 16 f (n / 16)).length) := by
        rw [pow_succ]; ring
      omega

/-- Round trip: decoding the hex rendering of a timestamp recovers it,
i.e. `int(format(n, 'x'), 16) == n`. -/
theorem parseHex_natToHex (n : Nat) : parseHex (natToHex n) = some n := by
  have hne := natToHex_ne_nil n
  have hcore := parseHexCore_natDigitsAux (n + 1) n 0 (Nat.lt_succ_self n)
  cases hx : natToHex n with
  | nil => exact absurd hx hne
  | cons ch rest =>
    unfold natToHex at hx
    rw [hx] at hcore
    simpa [parseHex, hx] using hcore

/-!
## The token codec and verifier (`generate_api_key` / `validate_api_key`)
-/

/-- Abstraction of the `hashlib` digests used by the source:
`md5hex s` models `hashlib.md5(s.encode()).hexdigest()` and
`sha256hex s` models `hashlib.sha256(s.encode()).hexdigest()`. -/
structure HashEnv where
  md5hex : Str → Str
  sha256hex : Str → Str

/-- The facts about `hexdigest()` the code relies on: an MD5 hexdigest is
32 lowercase hex characters and a SHA-256 hexdigest is 64. -/
def GoodHashEnv (H : HashEnv) : Prop :=
  (∀ s, (H.md5hex s).length = 32) ∧
  (∀ s, ∀ c ∈ H.md5hex s, c ∈ lowerHex) ∧
  (∀ s, (H.sha256hex s).length = 64) ∧
  (∀ s, ∀ c ∈ H.sha256hex s, c ∈ lowerHex)

/-- Abstraction of the `datetime` library calls: `parse_full` models
`strptime(s, "%Y-%m-%d %H:%M:%S")` followed by `.timestamp()`,
`parse_date_eod` models `strptime(s, "%Y-%m-%d")` with the time replaced
by 23:59:59 followed by `.timestamp()` (`none` models the `ValueError`
on a parse failure), and `fmt` models
`datetime.fromtimestamp(ts).strftime("%Y-%m-%d %H:%M:%S")`. -/
structure DateEnv where
  parse_full : Str → Option Nat
  parse_date_eod : Str → Option Nat
  fmt : Nat → Str

/-- One `secrets.choice(alphabet)` draw per index; `GoodOracle` is the
guarantee `secrets.choice` gives. -/
def GoodOracle (o : Nat → Char) : Prop := ∀ i, o i ∈ alphabet

/-- Model of the join of `n` successive `secrets.choice(alphabet)` draws. -/
def randFrom (o : Nat → Char) (n : Nat) : Str := (List.range n).map o

/-- The expiration-timestamp computation of `generate_api_key`
(lines 92-112): an explicit non-empty date string is parsed with the
date-plus-time format first, then the date-only format (end of day);
if both fail, or no explicit date was supplied (`None` or the falsy
empty string), the expiry is `now + days_valid` days.  A day is 86400
seconds (`datetime.timedelta(days=...)`). -/
def computeExpiryTs (D : DateEnv) (now : Nat) (expiration_date : Option Str)
    (days_valid : Nat) : Nat :=
  match expiration_date with
  | none => now + days_valid * 86400
  | some s =>
    if s = [] then now + days_valid * 86400
    else
      match D.parse_full s with
      | some t => t
      | none =>
        match D.parse_date_eod s with
        | some t => t
        | none => now + days_valid * 86400

/-- The `if not machine_id: machine_id = get_machine_id()` guard shared
by `generate_api_key` (line 116) and `validate_api_key` (line 148):
`None` and the falsy empty string both resolve to the current machine
identity (`current` models the `get_machine_id()` result). -/
def resolve_machine_id (machine_id : Option Str) (current : Str) : Str :=
  match machine_id with
  | none => current
  | some m => if m = [] then current else m

/-- `hashlib.md5(machine_id.encode()).hexdigest()[:12]` (lines 120, 152). -/
def machineHash (H : HashEnv) (mid : Str) : Str := (H.md5hex mid).take 12

/-- The colon-joined signing input
`f"{key_part}:{expiration_hex}:{machine_hash}:{salt}"` (lines 126, 159). -/
def signatureData (key_part expiration_hex machine_hash salt : Str) : Str :=
  key_part ++ ':' :: (expiration_hex ++ ':' :: (machine_hash ++ ':' :: salt))

/-- `hashlib.sha256(data.encode()).hexdigest()[:12]` (lines 127, 159). -/
def tokenSignature (H : HashEnv) (d : Str) : Str := (H.sha256hex d).take 12

/-- The five-field wire format
`f"{key_part}.{expiration_hex}.{machine_hash}.{salt}.{signature}"` (line 130). -/
def joinToken (key_part expiration_hex machine_hash salt sig : Str) : Str :=
  key_part ++ '.' :: (expiration_hex ++ '.' :: (machine_hash ++ '.' :: (salt ++ '.' :: sig)))

/-- The tuple returned by `generate_api_key`; `readable_date` is the
`strftime` rendering of the expiry. -/
structure GenResult where
  api_key : Str
  readable_date : Str
  machine_id : Str

/-- Model of `generate_api_key(expiration_date, days_valid, machine_id)`
(lines 74-135).  `keyOracle`/`saltOracle` supply the random draws for the
16-character secret and the 8-character salt, `current_machine` is the
`get_machine_id()` result, and `now` the issuing wall-clock timestamp. -/
def generate_api_key (H : HashEnv) (D : DateEnv) (keyOracle saltOracle : Nat → Char)
    (current_machine : Str) (now : Nat)
    (expiration_date : Option Str) (days_valid : Nat) (machine_id : Option Str) :
    GenResult :=
  let key_part := randFrom keyOracle 16
  let expiration_timestamp := computeExpiryTs D now expiration_date days_valid
  let expiration_hex := natToHex expiration_timestamp
  let mid := resolve_machine_id machine_id current_machine
  let machine_hash := machineHash H mid
  let salt := randFrom saltOracle 8
  let sig := tokenSignature H (signatureData key_part expiration_hex machine_hash salt)
  { api_key := joinToken key_part expiration_hex machine_hash salt sig
    readable_date := D.fmt expiration_timestamp
    machine_id := mid }

def formatErrorMsg : Str := "Invalid API key format".data

def wrongMachineMsg (keyHash curHash : Str) : Str :=
  "This API key is not valid for this computer. Key is bound to machine ID: ".data
    ++ keyHash ++ ", current machine ID: ".data ++ curHash

def invalidSignatureMsg : Str := "Invalid API key signature".data

def badExpiryFormatMsg : Str := "Invalid expiration date format".data

def expiredMsg (D : DateEnv) (ts : Nat) : Str :=
  "API key expired on ".data ++ D.fmt ts

/-- The success message of `validate_api_key` (lines 174-182):
`days_left` is `(expiration - now).days`, `hours_left` is
`(expiration - now).seconds // 3600`, reported at day/hour granularity. -/
def validMsg (D : DateEnv) (ts now : Nat) : Str :=
  let days_left := (ts - now) / 86400
  let hours_left := (ts - now) % 86400 / 3600
  let time_left :=
    if days_left > 0 then
      natToDec days_left ++ " days and ".data ++ natToDec hours_left ++ " hours".data
    else
      natToDec hours_left ++ " hours".data
  "API key is valid for ".data ++ time_left ++ " (until ".data ++ D.fmt ts ++ ")".data

/-- Body of `validate_api_key` after the five-way unpacking at line 145:
compare the machine binding, recompute and compare the signature,
decode the expiry from hex, and compare it with the current time,
short-circuiting on the first failure. -/
def validateFields (H : HashEnv) (D : DateEnv) (current_machine : Str) (now : Nat)
    (key_part expiration_hex key_machine_hash salt sig : Str)
    (machine_id : Option Str) : Bool × Str :=
  let mid := resolve_machine_id machine_id current_machine
  let current_machine_hash := machineHash H mid
  if key_machine_hash ≠ current_machine_hash then
    (false, wrongMachineMsg key_machine_hash current_machine_hash)
  else
    let expected_signature :=
      tokenSignature H (signatureData key_part expiration_hex key_machine_hash salt)
    if sig ≠ expected_signature then
      (false, invalidSignatureMsg)
    else
      match parseHex expiration_hex with
      | none => (false, badExpiryFormatMsg)
      | some ts =>
        if now > ts then (false, expiredMsg D ts)
        else (true, validMsg D ts now)

/-- Model of `validate_api_key(api_key, machine_id)` (lines 137-185):
split on the separator into exactly five fields (else the format
error), then run the field checks.  The pair models the
`(bool, message)` return. -/
def validate_api_key (H : HashEnv) (D : DateEnv) (current_machine : Str) (now : Nat)
    (api_key : Str) (machine_id : Option Str) : Bool × Str :=
  match splitOnChar '.' api_key with
  | [key_part, expiration_hex, key_machine_hash, salt, sig] =>
    validateFields H D current_machine now key_part expiration_hex key_machine_hash
      salt sig machine_id
  | _ => (false, formatErrorMsg)

/-!
## Facts about the generated fields
-/

theorem alphabet_ne_dot : ∀ c ∈ alphabet, c ≠ '.' := by decide

theorem lowerHex_ne_dot : ∀ c ∈ lowerHex, c ≠ '.' := by decide

theorem randFrom_length (o : Nat → Char) (n : Nat) : (randFrom o n).length = n := by
  simp [randFrom]

theorem randFrom_mem_alphabet (o : Nat → Char) (ho : GoodOracle o) (n : Nat) :
    ∀ c ∈ randFrom o n, c ∈ alphabet := by
  intro c hc
  rcases List.mem_map.mp hc with ⟨i, _, rfl⟩
  exact ho i

theorem dot_not_mem_randFrom (o : Nat → Char) (ho : GoodOracle o) (n : Nat) :
    '.' ∉ randFrom o n := by
  intro h
  exact alphabet_ne_dot '.' (randFrom_mem_alphabet o ho n '.' h) rfl

theorem dot_not_mem_natToHex (n : Nat) : '.' ∉ natToHex n := by
  intro h
  exact lowerHex_ne_dot '.' (natToHex_mem_lowerHex n '.' h) rfl

theorem machineHash_mem_lowerHex (H : HashEnv) (hH : GoodHashEnv H) (mid : Str) :
    ∀ c ∈ machineHash H mid, c ∈ lowerHex := by
  intro c hc
  exact hH.2.1 mid c (List.take_subset 12 (H.md5hex mid) hc)

theorem dot_not_mem_machineHash (H : HashEnv) (hH : GoodHashEnv H) (mid : Str) :
    '.' ∉ machineHash H mid := by
  intro h
  exact lowerHex_ne_dot '.' (machineHash_mem_lowerHex H hH mid '.' h) rfl

theorem machineHash_length (H : HashEnv) (hH : GoodHashEnv H) (mid : Str) :
    (machineHash H mid).length = 12 := by
  simp [machineHash, hH.1 mid]

theorem tokenSignature_mem_lowerHex (H : HashEnv) (hH : GoodHashEnv H) (d : Str) :
    ∀ c ∈ tokenSignature H d, c ∈ lowerHex := by
  intro c hc
  exact hH.2.2.2 d c (List.take_subset 12 (H.sha256hex d) hc)

theorem dot_not_mem_tokenSignature (H : HashEnv) (hH : GoodHashEnv H) (d : Str) :
    '.' ∉ tokenSignature H d := by
  intro h
  exact lowerHex_ne_dot '.' (tokenSignature_mem_lowerHex H hH d '.' h) rfl

theorem tokenSignature_length (H : HashEnv) (hH : GoodHashEnv H) (d : Str) :
    (tokenSignature H d).length = 12 := by
  simp [tokenSignature, hH.2.2.1 d]

/-- Splitting a well-formed token on the separator recovers exactly the
five fields it was built from, provided no field contains the separator. -/
theorem splitOnChar_joinToken (kp eh mh sa sg : Str)
    (h1 : '.' ∉ kp) (h2 : '.' ∉ eh) (h3 : '.' ∉ mh) (h4 : '.' ∉ sa) (h5 : '.' ∉ sg) :
    splitOnChar '.' (joinToken kp eh mh sa sg) = [kp, eh, mh, sa, sg] := by
  unfold joinToken
  rw [splitOnChar_append '.' kp _ h1, splitOnChar_append '.' eh _ h2,
    splitOnChar_append '.' mh _ h3, splitOnChar_append '.' sa _ h4,
    splitOnChar_no_sep '.' sg h5]

theorem validate_api_key_joinToken (H : HashEnv) (D : DateEnv)
    (current_machine : Str) (now : Nat) (kp eh mh sa sg : Str)
    (machine_id : Option Str)
    (h1 : '.' ∉ kp) (h2 : '.' ∉ eh) (h3 : '.' ∉ mh) (h4 : '.' ∉ sa) (h5 : '.' ∉ sg) :
    validate_api_key H D current_machine now (joinToken kp eh mh sa sg) machine_id =
      validateFields H D current_machine now kp eh mh sa sg machine_id := by
  unfold validate_api_key
  rw [splitOnChar_joinToken kp eh mh sa sg h1 h2 h3 h4 h5]

/-- Resolving an identity that is itself the result of resolution is a
no-op: the guard only replaces `None` and the empty string. -/
theorem resolve_machine_id_idem (a : Option Str) (cm : Str) :
    resolve_machine_id (some (resolve_machine_id a cm)) cm =
      resolve_machine_id a cm := by
  unfold resolve_machine_id
  match a with
  | none =>
    by_cases hcm : cm = [] <;> simp [hcm]
  | some m =>
    by_cases hm : m = [] <;> by_cases hcm : cm = [] <;> simp [hm, hcm]

/-!
## C1: issuance round-trip
-/

/-- C1: for every machine identity string and every expiry strictly in
the future, issuing a token with `generate_api_key` for that identity
and expiry and immediately validating it with `validate_api_key`
against the same identity returns the Valid outcome.  The identity
argument, the explicit expiration string, the validity period and the
two wall-clock instants are all universally quantified; the only
requirements are the `hashlib` hexdigest shape, the `secrets.choice`
alphabet guarantee, and that the computed expiry is still in the
future at validation time. -/
theorem C1_issue_then_verify_valid
    (H : HashEnv) (D : DateEnv) (kOr sOr : Nat → Char) (cm : Str)
    (n_gen n_val : Nat) (ed : Option Str) (days : Nat) (midArg : Option Str)
    (hH : GoodHashEnv H) (hk : GoodOracle kOr) (hs : GoodOracle sOr)
    (hfut : n_val < computeExpiryTs D n_gen ed days) :
    (validate_api_key H D cm n_val
      (generate_api_key H D kOr sOr cm n_gen ed days midArg).api_key
      (some (generate_api_key H D kOr sOr cm n_gen ed days midArg).machine_id)).1
      = true := by
  have hkey :
      (generate_api_key H D kOr sOr cm n_gen ed days midArg).api_key =
        joinToken (randFrom kOr 16) (natToHex (computeExpiryTs D n_gen ed days))
          (machineHash H (resolve_machine_id midArg cm)) (randFrom sOr 8)
          (tokenSignature H (signatureData (randFrom kOr 16)
            (natToHex (computeExpiryTs D n_gen ed days))
            (machineHash H (resolve_machine_id midArg cm)) (randFrom sOr 8))) := rfl
  have hmid :
      (generate_api_key H D kOr sOr cm n_gen ed days midArg).machine_id =
        resolve_machine_id midArg cm := rfl
  rw [hkey, hmid,
    validate_api_key_joinToken H D cm n_val _ _ _ _ _ _
      (dot_not_mem_randFrom kOr hk 16) (dot_not_mem_natToHex _)
      (dot_not_mem_machineHash H hH _) (dot_not_mem_randFrom sOr hs 8)
      (dot_not_mem_tokenSignature H hH _)]
  simp only [validateFields]
  rw [resolve_machine_id_idem]
  rw [if_neg (by simp), if_neg (by simp), parseHex_natToHex]
  have hle : ¬ (n_val > computeExpiryTs D n_gen ed days) := by omega
  simp [hle]

/-- A concrete `HashEnv` satisfying `GoodHashEnv`, used by witnesses. -/
def H0 : HashEnv :=
  { md5hex := fun _ => List.replicate 32 'a'
    sha256hex := fun _ => List.replicate 64 'b' }

theorem H0_good : GoodHashEnv H0 := by
  refine ⟨fun s => by simp [H0], fun s c hc => ?_, fun s => by simp [H0],
    fun s c hc => ?_⟩
  · simp only [H0, List.mem_replicate] at hc
    rw [hc.2]; decide
  · simp only [H0, List.mem_replicate] at hc
    rw [hc.2]; decide

/-- A concrete `DateEnv` whose parsers reject everything, used by witnesses. -/
def D0 : DateEnv := { parse_full := fun _ => none, parse_date_eod := fun _ => none,
                      fmt := fun _ => [] }

/-- A concrete draw oracle, used by witnesses. -/
def o0 : Nat → Char := fun _ => 'a'

theorem o0_good : GoodOracle o0 := by
  intro i
  show 'a' ∈ alphabet
  decide

/-- A concrete current-machine identity, used by witnesses. -/
def cm0 : Str := "host-A".data

/-- Witness for C1 at a concrete input: issue at time 0 with the
default five-day validity on machine `host-A`, validate at time 1. -/
theorem C1_issue_then_verify_valid_witness :
    (validate_api_key H0 D0 cm0 1
      (generate_api_key H0 D0 o0 o0 cm0 0 none 5 none).api_key
      (some (generate_api_key H0 D0 o0 o0 cm0 0 none 5 none).machine_id)).1
      = true :=
  C1_issue_then_verify_valid H0 D0 o0 o0 cm0 0 1 none 5 none
    H0_good o0_good o0_good (by decide)

/-!
## C3: fixed check order with short-circuiting
-/

theorem validate_api_key_of_split (H : HashEnv) (D : DateEnv) (cm : Str) (now : Nat)
    (t : Str) (midArg : Option Str) (kp eh mh sa sg : Str)
    (hsplit : splitOnChar '.' t = [kp, eh, mh, sa, sg]) :
    validate_api_key H D cm now t midArg =
      validateFields H D cm now kp eh mh sa sg midArg := by
  unfold validate_api_key
  rw [hsplit]

theorem validate_api_key_bad_format (H : HashEnv) (D : DateEnv) (cm : Str)
    (now : Nat) (t : Str) (midArg : Option Str)
    (h : (splitOnChar '.' t).length ≠ 5) :
    validate_api_key H D cm now t midArg = (false, formatErrorMsg) := by
  unfold validate_api_key
  generalize hl : splitOnChar '.' t = l
  rw [hl] at h
  rcases l with _ | ⟨a, _ | ⟨b, _ | ⟨c, _ | ⟨d, _ | ⟨e, _ | ⟨f, r⟩⟩⟩⟩⟩⟩ <;>
    first
      | rfl
      | (exfalso; simp at h)

/-- C3: `validate_api_key` performs its checks in the fixed order
format, machine binding, signature, expiry decoding, expiry
comparison, and short-circuits on the first failure.  In particular
(second conjunct) a token whose `machine_hash` field differs from the
truncated hash of the verifying identity yields the wrong-machine
outcome carrying both hashes, for every signature field whatsoever. -/
theorem C3_check_order (H : HashEnv) (D : DateEnv) (cm : Str) (now : Nat)
    (midArg : Option Str) :
    (∀ t : Str, (splitOnChar '.' t).length ≠ 5 →
      validate_api_key H D cm now t midArg = (false, formatErrorMsg)) ∧
    (∀ t kp eh mh sa sg : Str, splitOnChar '.' t = [kp, eh, mh, sa, sg] →
      mh ≠ machineHash H (resolve_machine_id midArg cm) →
      validate_api_key H D cm now t midArg =
        (false, wrongMachineMsg mh (machineHash H (resolve_machine_id midArg cm)))) ∧
    (∀ t kp eh mh sa sg : Str, splitOnChar '.' t = [kp, eh, mh, sa, sg] →
      mh = machineHash H (resolve_machine_id midArg cm) →
      sg ≠ tokenSignature H (signatureData kp eh mh sa) →
      validate_api_key H D cm now t midArg = (false, invalidSignatureMsg)) ∧
    (∀ t kp eh mh sa sg : Str, splitOnChar '.' t = [kp, eh, mh, sa, sg] →
      mh = machineHash H (resolve_machine_id midArg cm) →
      sg = tokenSignature H (signatureData kp eh mh sa) →
      parseHex eh = none →
      validate_api_key H D cm now t midArg = (false, badExpiryFormatMsg)) ∧
    (∀ t kp eh mh sa sg : Str, ∀ ts : Nat,
      splitOnChar '.' t = [kp, eh, mh, sa, sg] →
      mh = machineHash H (resolve_machine_id midArg cm) →
      sg = tokenSignature H (signatureData kp eh mh sa) →
      parseHex eh = some ts → now > ts →
      validate_api_key H D cm now t midArg = (false, expiredMsg D ts)) := by
  refine ⟨?_, ?_, ?_, ?_, ?_⟩
  · intro t h
    exact validate_api_key_bad_format H D cm now t midArg h
  · intro t kp eh mh sa sg hsp hmh
    rw [validate_api_key_of_split H D cm now t midArg kp eh mh sa sg hsp]
    simp only [validateFields]
    rw [if_pos hmh]
  · intro t kp eh mh sa sg hsp hmh hsg
    rw [validate_api_key_of_split H D cm now t midArg kp eh mh sa sg hsp]
    simp only [validateFields]
    rw [if_neg (by simp [hmh]), if_pos (hmh ▸ hsg)]
  · intro t kp eh mh sa sg hsp hmh hsg hpe
    rw [validate_api_key_of_split H D cm now t midArg kp eh mh sa sg hsp]
    simp only [validateFields]
    rw [if_neg (by simp [hmh]), if_neg (by simp [hmh, hsg]), hpe]
  · intro t kp eh mh sa sg ts hsp hmh hsg hpe hnow
    rw [validate_api_key_of_split H D cm now t midArg kp eh mh sa sg hsp]
    simp only [validateFields]
    rw [if_neg (by simp [hmh]), if_neg (by simp [hmh, hsg]), hpe]
    simp [hnow]

/-- Witness for C3 at concrete inputs: a three-field string fails the
format check, and a five-field token bound to a different machine hash
is rejected as wrong-machine even though its signature field is
arbitrary garbage. -/
theorem C3_check_order_witness :
    validate_api_key H0 D0 cm0 0 "abc.1a2b3c.deadbeefcafe".data none =
      (false, formatErrorMsg) ∧
    validate_api_key H0 D0 cm0 0
      (joinToken "abc".data "10".data "deadbeefcafe".data "xyz".data "sig".data) none =
      (false, wrongMachineMsg "deadbeefcafe".data
        (machineHash H0 (resolve_machine_id none cm0))) := by
  constructor
  · exact (C3_check_order H0 D0 cm0 0 none).1 _ (by decide)
  · exact (C3_check_order H0 D0 cm0 0 none).2.1 _
      "abc".data "10".data "deadbeefcafe".data "xyz".data "sig".data
      (by decide) (by decide)

/-!
## C6: expiry comparison semantics
-/

/-- C6: for a token that passes the format, machine-binding and
signature checks and whose `expiry` field decodes from hex, an expiry
strictly before the current time yields the expired outcome carrying
the expiry timestamp, and an expiry strictly after the current time
yields the Valid outcome with the remaining time reported at day/hour
granularity (`validMsg`). -/
theorem C6_expiry_semantics (H : HashEnv) (D : DateEnv) (cm : Str) (now : Nat)
    (midArg : Option Str) (t kp eh mh sa sg : Str) (ts : Nat)
    (hsp : splitOnChar '.' t = [kp, eh, mh, sa, sg])
    (hmh : mh = machineHash H (resolve_machine_id midArg cm))
    (hsg : sg = tokenSignature H (signatureData kp eh mh sa))
    (hpe : parseHex eh = some ts) :
    (now > ts → validate_api_key H D cm now t midArg = (false, expiredMsg D ts)) ∧
    (ts > now → validate_api_key H D cm now t midArg = (true, validMsg D ts now)) := by
  constructor
  · intro h
    rw [validate_api_key_of_split H D cm now t midArg kp eh mh sa sg hsp]
    simp only [validateFields]
    rw [if_neg (by simp [hmh]), if_neg (by simp [hmh, hsg]), hpe]
    simp [h]
  · intro h
    rw [validate_api_key_of_split H D cm now t midArg kp eh mh sa sg hsp]
    simp only [validateFields]
    rw [if_neg (by simp [hmh]), if_neg (by simp [hmh, hsg]), hpe]
    have hng : ¬ (now > ts) := by omega
    simp [hng]

/-- A concrete well-formed token under `H0` bound to `cm0`, with expiry
field `"10"` (timestamp 16), used by the C6 witness. -/
def tC6 : Str :=
  joinToken "abc".data "10".data (List.replicate 12 'a') "xyzw".data
    (List.replicate 12 'b')

/-- Witness for C6: the concrete token `tC6` is reported expired at
time 20 (its expiry decodes to 16) and valid at time 1. -/
theorem C6_expiry_semantics_witness :
    validate_api_key H0 D0 cm0 20 tC6 none = (false, expiredMsg D0 16) ∧
    validate_api_key H0 D0 cm0 1 tC6 none = (true, validMsg D0 16 1) := by
  constructor
  · exact (C6_expiry_semantics H0 D0 cm0 20 none tC6
      "abc".data "10".data (List.replicate 12 'a') "xyzw".data
      (List.replicate 12 'b') 16 (by decide) (by decide) (by decide) (by decide)).1
      (by decide)
  · exact (C6_expiry_semantics H0 D0 cm0 1 none tC6
      "abc".data "10".data (List.replicate 12 'a') "xyzw".data
      (List.replicate 12 'b') 16 (by decide) (by decide) (by decide) (by decide)).2
      (by decide)

/-!
## C4: the five-field wire format of a generated key
-/

/-- Shared shape lemma: every key built by `generate_api_key` is the
dot-join of five fields with the lengths, alphabets and definitions of
the data model, and splitting it on the separator recovers exactly
those fields. -/
theorem generate_api_key_shape (H : HashEnv) (D : DateEnv)
    (kOr sOr : Nat → Char) (cm : Str) (now : Nat) (ed : Option Str)
    (days : Nat) (midArg : Option Str)
    (hH : GoodHashEnv H) (hk : GoodOracle kOr) (hs : GoodOracle sOr) :
    ∃ kp eh mh sa sg : Str,
      (generate_api_key H D kOr sOr cm now ed days midArg).api_key =
        joinToken kp eh mh sa sg ∧
      splitOnChar '.' (generate_api_key H D kOr sOr cm now ed days midArg).api_key =
        [kp, eh, mh, sa, sg] ∧
      kp.length = 16 ∧ (∀ c ∈ kp, c ∈ alphabet) ∧
      eh = natToHex (computeExpiryTs D now ed days) ∧ eh ≠ [] ∧
      (∀ c ∈ eh, c ∈ lowerHex) ∧
      mh = (H.md5hex (resolve_machine_id midArg cm)).take 12 ∧
      mh.length = 12 ∧ (∀ c ∈ mh, c ∈ lowerHex) ∧
      sa.length = 8 ∧ (∀ c ∈ sa, c ∈ alphabet) ∧
      sg = (H.sha256hex (signatureData kp eh mh sa)).take 12 ∧
      sg.length = 12 ∧ (∀ c ∈ sg, c ∈ lowerHex) := by
  refine ⟨randFrom kOr 16, natToHex (computeExpiryTs D now ed days),
    machineHash H (resolve_machine_id midArg cm), randFrom sOr 8,
    tokenSignature H (signatureData (randFrom kOr 16)
      (natToHex (computeExpiryTs D now ed days))
      (machineHash H (resolve_machine_id midArg cm)) (randFrom sOr 8)),
    rfl, ?_, randFrom_length kOr 16, randFrom_mem_alphabet kOr hk 16,
    rfl, natToHex_ne_nil _, natToHex_mem_lowerHex _,
    rfl, machineHash_length H hH _, machineHash_mem_lowerHex H hH _,
    randFrom_length sOr 8, randFrom_mem_alphabet sOr hs 8,
    rfl, tokenSignature_length H hH _, tokenSignature_mem_lowerHex H hH _⟩
  have hkey :
      (generate_api_key H D kOr sOr cm now ed days midArg).api_key =
        joinToken (randFrom kOr 16) (natToHex (computeExpiryTs D now ed days))
          (machineHash H (resolve_machine_id midArg cm)) (randFrom sOr 8)
          (tokenSignature H (signatureData (randFrom kOr 16)
            (natToHex (computeExpiryTs D now ed days))
            (machineHash H (resolve_machine_id midArg cm)) (randFrom sOr 8))) := rfl
  rw [hkey, splitOnChar_joinToken _ _ _ _ _
    (dot_not_mem_randFrom kOr hk 16) (dot_not_mem_natToHex _)
    (dot_not_mem_machineHash H hH _) (dot_not_mem_randFrom sOr hs 8)
    (dot_not_mem_tokenSignature H hH _)]

/-- C4: every token returned by `generate_api_key` consists of exactly
five non-empty dot-separated fields `secret.expiry_hex.machine_hash.salt.signature`:
a 16-character alphanumeric secret, the lowercase-hex expiry timestamp,
the first 12 hex characters of the hash of the machine identity, an
8-character alphanumeric salt, and the first 12 hex characters of the
hash of the colon-joined `secret:expiry_hex:machine_hash:salt`. -/
theorem C4_token_wire_format (H : HashEnv) (D : DateEnv)
    (kOr sOr : Nat → Char) (cm : Str) (now : Nat) (ed : Option Str)
    (days : Nat) (midArg : Option Str)
    (hH : GoodHashEnv H) (hk : GoodOracle kOr) (hs : GoodOracle sOr) :
    ∃ kp eh mh sa sg : Str,
      (generate_api_key H D kOr sOr cm now ed days midArg).api_key =
        joinToken kp eh mh sa sg ∧
      splitOnChar '.' (generate_api_key H D kOr sOr cm now ed days midArg).api_key =
        [kp, eh, mh, sa, sg] ∧
      kp ≠ [] ∧ eh ≠ [] ∧ mh ≠ [] ∧ sa ≠ [] ∧ sg ≠ [] ∧
      kp.length = 16 ∧ (∀ c ∈ kp, c ∈ alphabet) ∧
      eh = natToHex (computeExpiryTs D now ed days) ∧
      (∀ c ∈ eh, c ∈ lowerHex) ∧
      mh = (H.md5hex (resolve_machine_id midArg cm)).take 12 ∧
      mh.length = 12 ∧ (∀ c ∈ mh, c ∈ lowerHex) ∧
      sa.length = 8 ∧ (∀ c ∈ sa, c ∈ alphabet) ∧
      sg = (H.sha256hex (signatureData kp eh mh sa)).take 12 ∧
      sg.length = 12 ∧ (∀ c ∈ sg, c ∈ lowerHex) := by
  obtain ⟨kp, eh, mh, sa, sg, h1, h2, h3, h4, h5, h6, h7, h8, h9, h10,
    h11, h12, h13, h14, h15⟩ :=
    generate_api_key_shape H D kOr sOr cm now ed days midArg hH hk hs
  refine ⟨kp, eh, mh, sa, sg, h1, h2, ?_, h6, ?_, ?_, ?_, h3, h4, h5, h7, h8,
    h9, h10, h11, h12, h13, h14, h15⟩
  · intro he; rw [he] at h3; simp at h3
  · intro he; rw [he] at h9; simp at h9
  · intro he; rw [he] at h11; simp at h11
  · intro he; rw [he] at h14; simp at h14

/-- Witness for C4 at a concrete input: the shape holds for a key
issued under the concrete hash environment and oracles. -/
theorem C4_token_wire_format_witness :
    ∃ kp eh mh sa sg : Str,
      (generate_api_key H0 D0 o0 o0 cm0 0 none 5 none).api_key =
        joinToken kp eh mh sa sg ∧
      splitOnChar '.' (generate_api_key H0 D0 o0 o0 cm0 0 none 5 none).api_key =
        [kp, eh, mh, sa, sg] ∧
      kp ≠ [] ∧ eh ≠ [] ∧ mh ≠ [] ∧ sa ≠ [] ∧ sg ≠ [] ∧
      kp.length = 16 ∧ (∀ c ∈ kp, c ∈ alphabet) ∧
      eh = natToHex (computeExpiryTs D0 0 none 5) ∧
      (∀ c ∈ eh, c ∈ lowerHex) ∧
      mh = (H0.md5hex (resolve_machine_id none cm0)).take 12 ∧
      mh.length = 12 ∧ (∀ c ∈ mh, c ∈ lowerHex) ∧
      sa.length = 8 ∧ (∀ c ∈ sa, c ∈ alphabet) ∧
      sg = (H0.sha256hex (signatureData kp eh mh sa)).take 12 ∧
      sg.length = 12 ∧ (∀ c ∈ sg, c ∈ lowerHex) :=
  C4_token_wire_format H0 D0 o0 o0 cm0 0 none 5 none H0_good o0_good o0_good

/-!
## C9: fallback on an unparsable expiry string
-/

/-- C9: when `generate_api_key` receives an explicit expiration string
that parses under neither the date-plus-time format nor the date-only
format, it does not fail: the expiry falls back to the current time
plus the default validity period in days, the produced result is
exactly the one of the no-expiration-given call, and the returned
token still satisfies all five-field invariants. -/
theorem C9_unparsable_expiry_fallback (H : HashEnv) (D : DateEnv)
    (kOr sOr : Nat → Char) (cm : Str) (now : Nat) (s : Str)
    (days : Nat) (midArg : Option Str)
    (hH : GoodHashEnv H) (hk : GoodOracle kOr) (hs : GoodOracle sOr)
    (h1 : D.parse_full s = none) (h2 : D.parse_date_eod s = none) :
    computeExpiryTs D now (some s) days = now + days * 86400 ∧
    generate_api_key H D kOr sOr cm now (some s) days midArg =
      generate_api_key H D kOr sOr cm now none days midArg ∧
    (∃ kp eh mh sa sg : Str,
      (generate_api_key H D kOr sOr cm now (some s) days midArg).api_key =
        joinToken kp eh mh sa sg ∧
      splitOnChar '.' (generate_api_key H D kOr sOr cm now (some s) days midArg).api_key =
        [kp, eh, mh, sa, sg] ∧
      kp.length = 16 ∧ (∀ c ∈ kp, c ∈ alphabet) ∧
      eh = natToHex (now + days * 86400) ∧ eh ≠ [] ∧
      (∀ c ∈ eh, c ∈ lowerHex) ∧
      mh = (H.md5hex (resolve_machine_id midArg cm)).take 12 ∧
      mh.length = 12 ∧ (∀ c ∈ mh, c ∈ lowerHex) ∧
      sa.length = 8 ∧ (∀ c ∈ sa, c ∈ alphabet) ∧
      sg = (H.sha256hex (signatureData kp eh mh sa)).take 12 ∧
      sg.length = 12 ∧ (∀ c ∈ sg, c ∈ lowerHex)) := by
  have hE : computeExpiryTs D now (some s) days = now + days * 86400 := by
    unfold computeExpiryTs
    by_cases hse : s = []
    · simp [hse]
    · simp [hse, h1, h2]
  refine ⟨hE, ?_, ?_⟩
  · unfold generate_api_key
    rw [hE]
    rfl
  · have := generate_api_key_shape H D kOr sOr cm now (some s) days midArg hH hk hs
    rw [hE] at this
    exact this

/-- Witness for C9: the string `"not-a-date"` parses under neither
format in the concrete date environment, and the fallback applies. -/
theorem C9_unparsable_expiry_fallback_witness :
    computeExpiryTs D0 100 (some "not-a-date".data) 5 = 100 + 5 * 86400 ∧
    generate_api_key H0 D0 o0 o0 cm0 100 (some "not-a-date".data) 5 none =
      generate_api_key H0 D0 o0 o0 cm0 100 none 5 none ∧
    (∃ kp eh mh sa sg : Str,
      (generate_api_key H0 D0 o0 o0 cm0 100 (some "not-a-date".data) 5 none).api_key =
        joinToken kp eh mh sa sg ∧
      splitOnChar '.'
          (generate_api_key H0 D0 o0 o0 cm0 100 (some "not-a-date".data) 5 none).api_key =
        [kp, eh, mh, sa, sg] ∧
      kp.length = 16 ∧ (∀ c ∈ kp, c ∈ alphabet) ∧
      eh = natToHex (100 + 5 * 86400) ∧ eh ≠ [] ∧
      (∀ c ∈ eh, c ∈ lowerHex) ∧
      mh = (H0.md5hex (resolve_machine_id none cm0)).take 12 ∧
      mh.length = 12 ∧ (∀ c ∈ mh, c ∈ lowerHex) ∧
      sa.length = 8 ∧ (∀ c ∈ sa, c ∈ alphabet) ∧
      sg = (H0.sha256hex (signatureData kp eh mh sa)).take 12 ∧
      sg.length = 12 ∧ (∀ c ∈ sg, c ∈ lowerHex)) :=
  C9_unparsable_expiry_fallback H0 D0 o0 o0 cm0 100 "not-a-date".data 5 none
    H0_good o0_good o0_good rfl rfl

/-!
## C10: the empty machine identity is treated as absent
-/

/-- C10: in both `generate_api_key` and `validate_api_key`, passing the
empty string as the machine identity is treated exactly like passing
no identity at all: the guard tests falsiness, so the current machine
identity is resolved and used in its place, and the minted token is
bound to the current machine, never to the empty identity string. -/
theorem C10_empty_machine_id_is_falsy (H : HashEnv) (D : DateEnv)
    (kOr sOr : Nat → Char) (cm : Str) (now : Nat) (ed : Option Str)
    (days : Nat) (k : Str) :
    resolve_machine_id (some []) cm = resolve_machine_id none cm ∧
    generate_api_key H D kOr sOr cm now ed days (some []) =
      generate_api_key H D kOr sOr cm now ed days none ∧
    (generate_api_key H D kOr sOr cm now ed days (some [])).machine_id = cm ∧
    validate_api_key H D cm now k (some []) =
      validate_api_key H D cm now k none := by
  have hres : resolve_machine_id (some ([] : Str)) cm = resolve_machine_id none cm := by
    simp [resolve_machine_id]
  refine ⟨hres, ?_, ?_, ?_⟩
  · unfold generate_api_key
    rw [hres]
  · show resolve_machine_id (some []) cm = cm
    simp [resolve_machine_id]
  · unfold validate_api_key
    generalize splitOnChar '.' k = l
    rcases l with _ | ⟨a, _ | ⟨b, _ | ⟨c, _ | ⟨d, _ | ⟨e, _ | ⟨f, r⟩⟩⟩⟩⟩⟩ <;> rfl

/-!
## C2: single-character mutation of a token field
-/

/-- The first four fields of a token (the signature travels separately). -/
structure TokenFields where
  secret : Str
  expiry : Str
  mhash : Str
  salt : Str

/-- The signing input of a token given by its fields. -/
def TokenFields.sigData (t : TokenFields) : Str :=
  signatureData t.secret t.expiry t.mhash t.salt

/-- The wire form of a token given by its fields and a signature field. -/
def TokenFields.joined (t : TokenFields) (sig : Str) : Str :=
  joinToken t.secret t.expiry t.mhash t.salt sig

/-- Replace the character at position `i` of field `f` (0 = secret,
1 = expiry, 2 = machine hash, 3 = salt) by `c`. -/
def mutateField (t : TokenFields) : Nat → Nat → Char → TokenFields
  | 0, i, c => { t with secret := t.secret.set i c }
  | 1, i, c => { t with expiry := t.expiry.set i c }
  | 2, i, c => { t with mhash := t.mhash.set i c }
  | 3, i, c => { t with salt := t.salt.set i c }
  | _, _, _ => t

theorem list_set_not_mem {l : Str} {a c : Char} (h : a ∉ l) (hc : c ≠ a) (i : Nat) :
    a ∉ l.set i c := by
  intro hm
  rcases List.mem_or_eq_of_mem_set hm with hmem | heq
  · exact h hmem
  · exact hc heq.symm

theorem validateFields_wrong_machine (H : HashEnv) (D : DateEnv) (cm : Str)
    (now : Nat) (kp eh mh sa sg : Str) (midArg : Option Str)
    (hmh : mh ≠ machineHash H (resolve_machine_id midArg cm)) :
    validateFields H D cm now kp eh mh sa sg midArg =
      (false, wrongMachineMsg mh (machineHash H (resolve_machine_id midArg cm))) := by
  simp only [validateFields]
  rw [if_pos hmh]

theorem validateFields_bad_signature (H : HashEnv) (D : DateEnv) (cm : Str)
    (now : Nat) (kp eh mh sa sg : Str) (midArg : Option Str)
    (hmh : mh = machineHash H (resolve_machine_id midArg cm))
    (hsg : sg ≠ tokenSignature H (signatureData kp eh mh sa)) :
    validateFields H D cm now kp eh mh sa sg midArg =
      (false, invalidSignatureMsg) := by
  simp only [validateFields]
  rw [if_neg (by simp [hmh]), if_pos (hmh ▸ hsg)]

/-- C2 (amended): take a well-formed, correctly signed token bound to
the verifying machine, and mutate one character of one of its first
four fields to any character other than the separator.  If the mutated
field is the secret, expiry or salt, validation rejects the token as
`Invalid("bad signature")` whenever the signature recomputed over the
mutated fields differs from the signature field of the token — which is
exactly the "overwhelming probability" event, failing only on a
collision of the 12-character hash truncation.  If the mutated field
is the machine hash, validation instead rejects the token as
`Invalid("wrong machine")` carrying both hashes, because the machine
binding is checked before the signature. -/
theorem C2_single_char_mutation (H : HashEnv) (D : DateEnv) (cm : Str)
    (now : Nat) (midArg : Option Str) (t : TokenFields) (f i : Nat) (c : Char)
    (hf4 : f < 4) (hH : GoodHashEnv H)
    (h1 : '.' ∉ t.secret) (h2 : '.' ∉ t.expiry) (h4 : '.' ∉ t.salt)
    (hbind : t.mhash = machineHash H (resolve_machine_id midArg cm))
    (hc : c ≠ '.') :
    (f ≠ 2 →
      tokenSignature H (mutateField t f i c).sigData ≠
        tokenSignature H t.sigData →
      validate_api_key H D cm now
        ((mutateField t f i c).joined (tokenSignature H t.sigData)) midArg =
        (false, invalidSignatureMsg)) ∧
    (f = 2 →
      (mutateField t f i c).mhash ≠ t.mhash →
      validate_api_key H D cm now
        ((mutateField t f i c).joined (tokenSignature H t.sigData)) midArg =
        (false, wrongMachineMsg (mutateField t f i c).mhash t.mhash)) := by
  have h3 : '.' ∉ t.mhash := by
    rw [hbind]; exact dot_not_mem_machineHash H hH _
  have hdots : '.' ∉ (mutateField t f i c).secret ∧
      '.' ∉ (mutateField t f i c).expiry ∧
      '.' ∉ (mutateField t f i c).mhash ∧
      '.' ∉ (mutateField t f i c).salt := by
    interval_cases f
    · exact ⟨list_set_not_mem h1 hc i, h2, h3, h4⟩
    · exact ⟨h1, list_set_not_mem h2 hc i, h3, h4⟩
    · exact ⟨h1, h2, list_set_not_mem h3 hc i, h4⟩
    · exact ⟨h1, h2, h3, list_set_not_mem h4 hc i⟩
  have hsplit := validate_api_key_joinToken H D cm now
    (mutateField t f i c).secret (mutateField t f i c).expiry
    (mutateField t f i c).mhash (mutateField t f i c).salt
    (tokenSignature H t.sigData) midArg
    hdots.1 hdots.2.1 hdots.2.2.1 hdots.2.2.2
    (dot_not_mem_tokenSignature H hH _)
  constructor
  · intro hf hsig
    have hm2 : (mutateField t f i c).mhash = t.mhash := by
      interval_cases f
      · rfl
      · rfl
      · exact absurd rfl hf
      · rfl
    rw [TokenFields.joined, hsplit]
    exact validateFields_bad_signature H D cm now _ _ _ _ _ midArg
      (hm2.trans hbind) (fun he => hsig he.symm)
  · intro hf hmut
    subst hf
    rw [TokenFields.joined, hsplit]
    have hmm : (mutateField t 2 i c).mhash ≠
        machineHash H (resolve_machine_id midArg cm) := by
      rw [← hbind]; exact hmut
    rw [validateFields_wrong_machine H D cm now _ _ _ _ _ midArg hmm, ← hbind]

/-- A concrete well-formed token bound to `cm0` under the constant hash
environment `H0`, used by the C2 counterexample. -/
def tC2 : TokenFields :=
  { secret := List.replicate 16 'k'
    expiry := "10".data
    mhash := List.replicate 12 'a'
    salt := List.replicate 8 's' }

/-- Counterexample to C2 as stated: `tC2` with its correct signature
validates as Valid, yet mutating a single character of its
`machine_hash` field does not produce the bad-signature outcome — the
verifier rejects it as wrong-machine first. -/
theorem C2_counterexample :
    (validate_api_key H0 D0 cm0 0 (tC2.joined (tokenSignature H0 tC2.sigData))
      none).1 = true ∧
    (validate_api_key H0 D0 cm0 0
      ((mutateField tC2 2 0 'b').joined (tokenSignature H0 tC2.sigData))
      none).1 = false ∧
    (validate_api_key H0 D0 cm0 0
      ((mutateField tC2 2 0 'b').joined (tokenSignature H0 tC2.sigData))
      none).2 ≠ invalidSignatureMsg := by
  refine ⟨by decide, by decide, by decide⟩

/-- A hash environment whose SHA-256 abstraction distinguishes the
signing input of `tC2` from every other input, used by the C2 witness. -/
def H2c : HashEnv :=
  { md5hex := fun _ => List.replicate 32 'a'
    sha256hex := fun s =>
      if s = tC2.sigData then List.replicate 64 'b' else List.replicate 64 'e' }

theorem H2c_good : GoodHashEnv H2c := by
  refine ⟨fun s => by simp [H2c], fun s c hc => ?_, fun s => ?_, fun s c hc => ?_⟩
  · simp only [H2c, List.mem_replicate] at hc
    rw [hc.2]; decide
  · simp only [H2c]
    split <;> simp
  · simp only [H2c] at hc
    split at hc <;> (simp only [List.mem_replicate] at hc; rw [hc.2]; decide)

/-- Witness for the amended C2: mutating the first character of the
secret of `tC2` to `'x'` makes validation fail with the bad-signature
outcome under `H2c`. -/
theorem C2_single_char_mutation_witness :
    validate_api_key H2c D0 cm0 0
      ((mutateField tC2 0 0 'x').joined (tokenSignature H2c tC2.sigData)) none =
      (false, invalidSignatureMsg) :=
  (C2_single_char_mutation H2c D0 cm0 0 none tC2 0 0 'x' (by decide) H2c_good
    (by decide) (by decide) (by decide) (by decide) (by decide)).1
    (by decide) (by decide)

/-!
## The manifest patch passes

The manifest (`manifest.json`) is a JSON object; it is modelled as an
association list of string keys and `JVal` values.  `json.load` yields
unique keys; key assignment (`manifest[k] = v`) replaces the value in
place when the key exists and appends it otherwise, as `setKey` does.
Entries of `web_accessible_resources` that are not objects with a
list-valued `"resources"` key are skipped by the model; in the source
such malformed entries either fail the membership test or raise inside
the surrounding `try`, which leaves the manifest file unwritten, so
they never make the patched manifest diverge from the model on the
inputs considered here.
-/

inductive JVal where
  | str : String → JVal
  | num : Int → JVal
  | boolean : Bool → JVal
  | arr : List JVal → JVal
  | obj : List (String × JVal) → JVal

def getKey (k : String) : List (String × JVal) → Option JVal
  | [] => none
  | (k2, v) :: rest => if k2 = k then some v else getKey k rest

def setKey (k : String) (v : JVal) : List (String × JVal) → List (String × JVal)
  | [] => [(k, v)]
  | (k2, v2) :: rest => if k2 = k then (k, v) :: rest else (k2, v2) :: setKey k v rest

theorem getKey_setKey_ne (k k2 : String) (v : JVal) (m : List (String × JVal))
    (h : k ≠ k2) : getKey k (setKey k2 v m) = getKey k m := by
  have h2 : ¬ (k2 = k) := fun he => h he.symm
  induction m with
  | nil => simp [setKey, getKey, h2]
  | cons e rest ih =>
    obtain ⟨k3, v3⟩ := e
    by_cases h32 : k3 = k2
    · subst h32
      simp [setKey, getKey, h2]
    · simp [setKey, getKey, h32, ih]

/-- Python `x == "s"` for a JSON value: only the equal string compares
equal (used for the `in`-list membership tests of the source). -/
def isStrVal (s : String) : JVal → Bool
  | JVal.str t => t == s
  | _ => false

/-- The resource-group entry appended by `patch_manifest`: an object
whose `resources` list holds `security.js` and whose `matches` list
holds `<all_urls>`. -/
def warEntry : JVal :=
  JVal.obj [("resources", JVal.arr [JVal.str "security.js"]),
            ("matches", JVal.arr [JVal.str "<all_urls>"])]

/-- The content-security-policy object `patch_manifest` installs. -/
def cspValue : JVal :=
  JVal.obj [("extension_pages",
             JVal.str "script-src \x27self\x27; object-src \x27self\x27")]

/-- The `for resource_entry in manifest["web_accessible_resources"]`
loop of `patch_manifest` (lines 638-643): walk the entries; at the
first object entry whose `resources` list lacks `"security.js"`,
append it and stop (`break`), reporting `true`; otherwise report
`false` (the `resources_added` flag). -/
def addSecurityJs : List JVal → List JVal × Bool
  | [] => ([], false)
  | e :: rest =>
    match e with
    | JVal.obj fields =>
      match getKey "resources" fields with
      | some (JVal.arr rs) =>
        if rs.any (isStrVal "security.js") then
          let p := addSecurityJs rest
          (JVal.obj fields :: p.1, p.2)
        else
          (JVal.obj (setKey "resources"
            (JVal.arr (rs ++ [JVal.str "security.js"])) fields) :: rest, true)
      | _ =>
        let p := addSecurityJs rest
        (e :: p.1, p.2)
    | _ =>
      let p := addSecurityJs rest
      (e :: p.1, p.2)

/-- Model of the manifest transformation of `patch_manifest`
(lines 616-657): ensure a `web_accessible_resources` entry carries
`security.js` — creating the field when absent, otherwise running the
flag-and-break loop and appending a fresh resource group when the flag
stayed false — and then overwrite `content_security_policy`.  A
non-list `web_accessible_resources` raises inside the `try`, so the
manifest is left unchanged. -/
def patch_manifest (m : List (String × JVal)) : List (String × JVal) :=
  match getKey "web_accessible_resources" m with
  | none =>
    setKey "content_security_policy" cspValue
      (setKey "web_accessible_resources" (JVal.arr [warEntry]) m)
  | some (JVal.arr entries) =>
    let p := addSecurityJs entries
    let entries2 := if p.2 then p.1 else p.1 ++ [warEntry]
    setKey "content_security_policy" cspValue
      (setKey "web_accessible_resources" (JVal.arr entries2) m)
  | some _ => m

/-- The `background_wrapper.js` file body written by
`inject_api_key_validation` for a service-worker manifest
(lines 364-371), importing the validation script and then the original
service worker. -/
def wrapperContent (sw : String) : String :=
  "\n// Import API validation first\nimport \x27./api_validation.js\x27;\n// Then import the original service worker\nimport \x27./"
    ++ sw ++ "\x27;\n"

/-- Model of the manifest update of `inject_api_key_validation`
(lines 349-396), assuming a well-formed five-field key: prepend
`api_validation.js` to `background.scripts` unless present; for a
service-worker manifest, write a wrapper asset (the second component)
and point `service_worker` at it; create `background` when absent.
Shapes whose mutation would raise inside the surrounding `try` leave
the manifest unwritten. -/
def inject_api_key_validation_manifest (m : List (String × JVal)) :
    List (String × JVal) × Option String :=
  match getKey "background" m with
  | some (JVal.obj bg) =>
    match getKey "scripts" bg with
    | some (JVal.arr scripts) =>
      if scripts.any (isStrVal "api_validation.js") then (m, none)
      else
        (setKey "background"
          (JVal.obj (setKey "scripts"
            (JVal.arr (JVal.str "api_validation.js" :: scripts)) bg)) m, none)
    | some _ => (m, none)
    | none =>
      match getKey "service_worker" bg with
      | some (JVal.str sw) =>
        (setKey "background"
          (JVal.obj (setKey "service_worker"
            (JVal.str "background_wrapper.js") bg)) m,
         some (wrapperContent sw))
      | _ => (m, none)
  | some _ => (m, none)
  | none =>
    (setKey "background"
      (JVal.obj [("scripts", JVal.arr [JVal.str "api_validation.js"])]) m, none)

/-- Length of the `web_accessible_resources` list of a manifest. -/
def warLen (m : List (String × JVal)) : Nat :=
  match getKey "web_accessible_resources" m with
  | some (JVal.arr es) => es.length
  | _ => 0

/-!
## C5: the security patch pass is not idempotent on the manifest
-/

/-- C5 fails on the code: applying `patch_manifest` twice to a manifest
is not the same as applying it once.  The first pass installs one
`web_accessible_resources` entry; the second pass finds `security.js`
already present in that entry, so the `resources_added` flag stays
false and the loop epilogue appends a second, duplicate resource
group — the output manifests differ (their resource lists have lengths
2 and 1). -/
theorem C5_patch_manifest_not_idempotent :
    patch_manifest (patch_manifest []) ≠ patch_manifest [] ∧
    warLen (patch_manifest (patch_manifest [])) = 2 ∧
    warLen (patch_manifest []) = 1 := by
  refine ⟨?_, rfl, rfl⟩
  intro h
  have h2 := congrArg warLen h
  rw [show warLen (patch_manifest (patch_manifest [])) = 2 from rfl,
    show warLen (patch_manifest []) = 1 from rfl] at h2
  exact absurd h2 (by decide)

/-!
## C8: preservation of manifest fields the passes do not own
-/

/-- C8 (amended): the patch passes own the top-level manifest fields
`background`, `web_accessible_resources` and `content_security_policy`;
every other top-level field is preserved verbatim by both the security
pass (`patch_manifest`) and the key-injection pass
(`inject_api_key_validation_manifest`), on every input manifest. -/
theorem C8_unowned_fields_preserved (m : List (String × JVal)) (k : String)
    (h1 : k ≠ "background") (h2 : k ≠ "web_accessible_resources")
    (h3 : k ≠ "content_security_policy") :
    getKey k (patch_manifest m) = getKey k m ∧
    getKey k (inject_api_key_validation_manifest m).1 = getKey k m := by
  constructor
  · unfold patch_manifest
    split
    · rw [getKey_setKey_ne _ _ _ _ h3, getKey_setKey_ne _ _ _ _ h2]
    · rw [getKey_setKey_ne _ _ _ _ h3, getKey_setKey_ne _ _ _ _ h2]
    · rfl
  · unfold inject_api_key_validation_manifest
    split
    · split
      · split
        · rfl
        · rw [getKey_setKey_ne _ _ _ _ h1]
      · rfl
      · split
        · rw [getKey_setKey_ne _ _ _ _ h1]
        · rfl
    · rfl
    · rw [getKey_setKey_ne _ _ _ _ h1]

/-- Counterexample to C8 as stated: `patch_manifest` does not preserve
the `content_security_policy` field, which is outside the owned set
named by the claim — an existing string value is overwritten with the
fixed policy object. -/
theorem C8_counterexample :
    getKey "content_security_policy"
      [("content_security_policy", JVal.str "old")] = some (JVal.str "old") ∧
    getKey "content_security_policy"
      (patch_manifest [("content_security_policy", JVal.str "old")]) =
      some cspValue ∧
    cspValue ≠ JVal.str "old" := by
  refine ⟨rfl, rfl, ?_⟩
  intro h
  exact JVal.noConfusion h

/-- Witness for the amended C8 at a concrete manifest: the unrelated
field `name` survives both passes untouched. -/
theorem C8_unowned_fields_preserved_witness :
    getKey "name" (patch_manifest [("name", JVal.str "x")]) =
      getKey "name" [("name", JVal.str "x")] ∧
    getKey "name"
      (inject_api_key_validation_manifest [("name", JVal.str "x")]).1 =
      getKey "name" [("name", JVal.str "x")] :=
  C8_unowned_fields_preserved [("name", JVal.str "x")] "name"
    (by decide) (by decide) (by decide)

/-!
## C7: working-copy cleanup in the packaging pipeline

`generate_user_package` (lines 823-889) is one `try` block: copy the
bundle (`shutil.copytree`), run the patch passes, package, remove the
working copy (`shutil.rmtree`), rename the archive; the `except`
handler logs and returns `None`.  Each effectful step is modelled by a
flag saying whether that call raises; `package_extension` never raises
(it catches its own exceptions and returns `None`, line 818-821), so
it carries a success flag instead.  The outcome records whether the
`rmtree` cleanup was reached and completed, whether a zip path was
returned, and whether an exception escaped to the caller.  `main`
(lines 960-1000) has the same shape: copy, patch, inject, package,
`rmtree`, with an `except` that only logs. -/
structure PipelineEnv where
  copyRaises : Bool
  patchRaises : Bool
  injectRaises : Bool
  packageSucceeds : Bool
  cleanupRaises : Bool
  moveRaises : Bool

structure PipelineOutcome where
  cleanupAttempted : Bool
  cleanupSucceeded : Bool
  returnedZip : Bool
  raisedToCaller : Bool

/-- Control-flow model of `generate_user_package`: an exception in the
copy, patch or injection step jumps straight to the `except` handler
(log, `return None`) without reaching the `rmtree` cleanup; on the
straight-line path the cleanup runs after packaging, and a cleanup or
rename failure is also absorbed by the handler. -/
def generate_user_package (env : PipelineEnv) : PipelineOutcome :=
  if env.copyRaises then
    { cleanupAttempted := false, cleanupSucceeded := false,
      returnedZip := false, raisedToCaller := false }
  else if env.patchRaises then
    { cleanupAttempted := false, cleanupSucceeded := false,
      returnedZip := false, raisedToCaller := false }
  else if env.injectRaises then
    { cleanupAttempted := false, cleanupSucceeded := false,
      returnedZip := false, raisedToCaller := false }
  else if env.cleanupRaises then
    { cleanupAttempted := true, cleanupSucceeded := false,
      returnedZip := false, raisedToCaller := false }
  else if env.moveRaises then
    { cleanupAttempted := true, cleanupSucceeded := true,
      returnedZip := false, raisedToCaller := false }
  else
    { cleanupAttempted := true, cleanupSucceeded := true,
      returnedZip := env.packageSucceeds, raisedToCaller := false }

/-- Counterexample to C7 as stated: in a run whose security-patch step
raises (after the bundle copy, before the archive step), the exception
is absorbed by the handler but the working copy is never removed. -/
theorem C7_counterexample :
    (generate_user_package
      ⟨false, true, false, true, false, false⟩).cleanupAttempted = false ∧
    (generate_user_package
      ⟨false, true, false, true, false, false⟩).raisedToCaller = false :=
  ⟨rfl, rfl⟩

/-- C7 (amended): the working copy of the bundle is removed before the
run returns on the straight-line path — every run in which neither the
bundle copy nor a patch pass raises reaches the cleanup, regardless of
whether packaging itself succeeded, since `package_extension` absorbs
its own errors.  An exception raised in the copy, patch or injection
step instead propagates to the `except` handler of the run, which logs it
and returns failure without removing the working copy.  No exception
ever propagates to the caller; in particular a failure of the removal
itself is logged and absorbed. -/
theorem C7_cleanup_success_path_only (env : PipelineEnv) :
    (env.copyRaises = false → env.patchRaises = false →
      env.injectRaises = false →
      (generate_user_package env).cleanupAttempted = true) ∧
    (env.copyRaises = false → env.patchRaises = false →
      env.injectRaises = false → env.cleanupRaises = false →
      (generate_user_package env).cleanupSucceeded = true) ∧
    (env.copyRaises = true ∨ env.patchRaises = true ∨ env.injectRaises = true →
      (generate_user_package env).cleanupAttempted = false ∧
      (generate_user_package env).returnedZip = false) ∧
    (generate_user_package env).raisedToCaller = false := by
  obtain ⟨c, p, j, pk, cl, mv⟩ := env
  cases c <;> cases p <;> cases j <;> cases pk <;> cases cl <;> cases mv <;> decide

/-- Witness for the amended C7: a fully successful run reaches and
completes the cleanup, and a run whose patch step raises does not. -/
theorem C7_cleanup_success_path_only_witness :
    (generate_user_package
      ⟨false, false, false, true, false, false⟩).cleanupAttempted = true ∧
    (generate_user_package
      ⟨false, false, false, true, false, false⟩).cleanupSucceeded = true ∧
    (generate_user_package
      ⟨true, false, false, true, false, false⟩).cleanupAttempted = false ∧
    (generate_user_package
      ⟨true, false, false, true, false, false⟩).raisedToCaller = false := by
  refine ⟨(C7_cleanup_success_path_only
      ⟨false, false, false, true, false, false⟩).1 rfl rfl rfl,
    (C7_cleanup_success_path_only
      ⟨false, false, false, true, false, false⟩).2.1 rfl rfl rfl rfl,
    ((C7_cleanup_success_path_only
      ⟨true, false, false, true, false, false⟩).2.2.1 (Or.inl rfl)).1,
    (C7_cleanup_success_path_only
      ⟨true, false, false, true, false, false⟩).2.2.2⟩
